import Mathlib

/-!
Verification of the LunaTV live-watch statistics engine.

This file is a shallow embedding of three route handlers:
* heartbeat ingestion (`src/app/api/live/heartbeat/route.ts`, `POST` and its
  local `settleWatchSession`),
* explicit end-watch (the `heartbeat/end` route, `POST`),
* the admin live-stats report (the `admin/live-stats` route, `GET`).

Modelling conventions:
* Timestamps are `Nat` milliseconds (the value of `Date.now()`).
* The `YYYY-MM-DD` day key produced by `toISOString().split('T')[0]` is in
  bijection with the epoch-day number `t / MS_PER_DAY` for the timestamps the
  code handles, so day keys are modelled as `Nat` epoch-day indices.  The code
  derives the daily key from a `new Date()` read at settlement time, which is a
  second clock read distinct from the `endTime` argument; the embedding makes
  that read an explicit `today` parameter.
* The Redis-style store is modelled as one total function per key family,
  `none` standing for an absent key.  TTLs only delete keys, so executions in
  which no expiry fires (the situations the claims quantify over) are modelled
  by a store that never spontaneously drops keys.
* `await`ed store operations are sequenced state updates; the settlement code
  catches and swallows its own storage errors, and no claim quantifies over
  failing stores, so operations always succeed in the model.
* JS `Map` (insertion-ordered, update-in-place) is modelled as an association
  list updated in place, `Set` as a duplicate-free list grown at the end, and
  the stable `Array.prototype.sort` as `List.insertionSort` (all stable sorts
  agree extensionally under a total preorder comparator).
-/

/-- Heartbeat interval in seconds (`HEARTBEAT_INTERVAL` in both routes). -/
def HEARTBEAT_INTERVAL : Nat := 30

/-- Watch-state TTL in seconds (`WATCH_STATE_TTL`). -/
def WATCH_STATE_TTL : Nat := 60

/-- Maximum recordable session duration in seconds (`MAX_SESSION_DURATION`). -/
def MAX_SESSION_DURATION : Nat := 8 * 60 * 60

/-- Minimum recordable session duration in seconds (`MIN_SESSION_DURATION`). -/
def MIN_SESSION_DURATION : Nat := 30

/-- Milliseconds per UTC calendar day; `t / MS_PER_DAY` is the epoch-day
number that models the `YYYY-MM-DD` key derived from timestamp `t`. -/
def MS_PER_DAY : Nat := 24 * 60 * 60 * 1000

/-- `LiveWatchState` from `@/lib/types`: the ephemeral per-(user, sessionId)
watching state stored at `live:watching:{username}:{sessionId}`. -/
structure LiveWatchState where
  channelId : String
  channelName : String
  channelGroup : String
  channelLogo : String
  sourceKey : String
  sourceName : String
  startTime : Nat
  lastHeartbeat : Nat
  heartbeatCount : Nat
  deriving DecidableEq

/-- `LiveWatchSession` from `@/lib/types`: an immutable settled session
record, stored in the `live:sessions:{username}` list. -/
structure LiveWatchSession where
  channelId : String
  channelName : String
  channelGroup : String
  channelLogo : String
  sourceKey : String
  sourceName : String
  startTime : Nat
  endTime : Nat
  duration : Nat
  heartbeatCount : Nat
  deriving DecidableEq

/-- The per-user accumulator stored at `live:stats:{username}`. -/
structure UserStats where
  totalWatchTime : Nat
  totalSessions : Nat
  lastWatchTime : Nat
  deriving DecidableEq

/-- The per-day accumulator stored at `live:daily:{YYYY-MM-DD}`;
`users` is the deduplicated active-user list grown by `push`. -/
structure DailyStats where
  watchTime : Nat
  sessions : Nat
  users : List String
  deriving DecidableEq

/-- The per-channel accumulator stored at `live:channel:{channelId}`. -/
structure ChannelStats where
  channelId : String
  channelName : String
  channelGroup : String
  totalWatchTime : Nat
  totalSessions : Nat
  users : List String
  deriving DecidableEq

/-- The key-value store, one field per key family of the `live:` namespace.
`none` models an absent key. -/
structure Store where
  watching : String → String → Option LiveWatchState
  sessions : String → Option (List LiveWatchSession)
  stats : String → Option UserStats
  daily : Nat → Option DailyStats
  channel : String → Option ChannelStats

/-- The store with no keys set. -/
def emptyStore : Store :=
  { watching := fun _ _ => none
    sessions := fun _ => none
    stats := fun _ => none
    daily := fun _ => none
    channel := fun _ => none }

/-- Zero-valued `UserStats`, the `||` default used when the key is absent. -/
def defaultUserStats : UserStats :=
  { totalWatchTime := 0, totalSessions := 0, lastWatchTime := 0 }

/-- Zero-valued `DailyStats`, the `||` default used when the key is absent. -/
def defaultDailyStats : DailyStats :=
  { watchTime := 0, sessions := 0, users := [] }

/-- Zero-valued `ChannelStats` seeded from the watch state, the `||` default
used when the channel key is absent. -/
def initChannelStats (state : LiveWatchState) : ChannelStats :=
  { channelId := state.channelId
    channelName := state.channelName
    channelGroup := state.channelGroup
    totalWatchTime := 0
    totalSessions := 0
    users := [] }

/-- The `LiveWatchSession` literal built by `settleWatchSession`:
all identity fields copied from the state, `duration` derived from the
heartbeat count. -/
def mkWatchSession (state : LiveWatchState) (endTime : Nat) : LiveWatchSession :=
  { channelId := state.channelId
    channelName := state.channelName
    channelGroup := state.channelGroup
    channelLogo := state.channelLogo
    sourceKey := state.sourceKey
    sourceName := state.sourceName
    startTime := state.startTime
    endTime := endTime
    duration := state.heartbeatCount * HEARTBEAT_INTERVAL
    heartbeatCount := state.heartbeatCount }

/-- `existingSessions.unshift(session); if (length > 100) length = 100`:
the list is truncated to its first 100 entries only when it exceeds 100. -/
def truncate100 (l : List LiveWatchSession) : List LiveWatchSession :=
  if 100 < l.length then l.take 100 else l

/-- The additive `UserStats` update performed by one settlement. -/
def bumpUserStats (s : UserStats) (duration endTime : Nat) : UserStats :=
  { totalWatchTime := s.totalWatchTime + duration
    totalSessions := s.totalSessions + 1
    lastWatchTime := endTime }

/-- The additive `DailyStats` update performed by one settlement. -/
def bumpDailyStats (d : DailyStats) (username : String) (duration : Nat) :
    DailyStats :=
  { watchTime := d.watchTime + duration
    sessions := d.sessions + 1
    users := if username ∈ d.users then d.users else d.users ++ [username] }

/-- The additive `ChannelStats` update performed by one settlement. -/
def bumpChannelStats (c : ChannelStats) (username : String) (duration : Nat) :
    ChannelStats :=
  { c with
    totalWatchTime := c.totalWatchTime + duration
    totalSessions := c.totalSessions + 1
    users := if username ∈ c.users then c.users else c.users ++ [username] }

/-- `settleWatchSession(username, state, endTime)` from the heartbeat route
(the end route carries a verbatim copy of the same function).
`duration = heartbeatCount * HEARTBEAT_INTERVAL`; out-of-range durations
return without touching the store; otherwise the session is prepended to the
user's bounded list and the three accumulators are updated additively.
`today` is the epoch-day read from `new Date()` inside the function. -/
def settleWatchSession (username : String) (state : LiveWatchState)
    (endTime today : Nat) (store : Store) : Store :=
  let duration := state.heartbeatCount * HEARTBEAT_INTERVAL
  if duration < MIN_SESSION_DURATION then store
  else if MAX_SESSION_DURATION < duration then store
  else
    { watching := store.watching
      sessions := fun u =>
        if u = username then
          some (truncate100 (mkWatchSession state endTime :: (store.sessions u).getD []))
        else store.sessions u
      stats := fun u =>
        if u = username then
          some (bumpUserStats ((store.stats u).getD defaultUserStats) duration endTime)
        else store.stats u
      daily := fun d =>
        if d = today then
          some (bumpDailyStats ((store.daily d).getD defaultDailyStats) username duration)
        else store.daily d
      channel := fun c =>
        if c = state.channelId then
          some (bumpChannelStats ((store.channel c).getD (initChannelStats state)) username duration)
        else store.channel c }

/-- `LiveHeartbeatRequest` from `@/lib/types`: the heartbeat POST body. -/
structure LiveHeartbeatRequest where
  sessionId : String
  channelId : String
  channelName : String
  channelGroup : String
  channelLogo : String
  sourceKey : String
  sourceName : String
  deriving DecidableEq

/-- Writing the `live:watching:{username}:{sessionId}` key. -/
def Store.setWatching (store : Store) (username sessionId : String)
    (st : LiveWatchState) : Store :=
  { store with
    watching := fun u s =>
      if u = username ∧ s = sessionId then some st else store.watching u s }

/-- Deleting the `live:watching:{username}:{sessionId}` key. -/
def Store.delWatching (store : Store) (username sessionId : String) : Store :=
  { store with
    watching := fun u s =>
      if u = username ∧ s = sessionId then none else store.watching u s }

/-- The fresh `LiveWatchState` created on a first heartbeat or on a channel
switch: `heartbeatCount = 1`, `startTime = lastHeartbeat = now`. -/
def mkNewWatchState (body : LiveHeartbeatRequest) (now : Nat) : LiveWatchState :=
  { channelId := body.channelId
    channelName := body.channelName
    channelGroup := body.channelGroup
    channelLogo := body.channelLogo
    sourceKey := body.sourceKey
    sourceName := body.sourceName
    startTime := now
    lastHeartbeat := now
    heartbeatCount := 1 }

/-- `POST /api/live/heartbeat`.  Missing required fields (JS falsy = empty
string) return a 400 without touching the store.  Otherwise: no prior state
creates a fresh state; a same-channel state is re-persisted with
`heartbeatCount + 1` and `lastHeartbeat = now`; a different-channel state is
settled with `endTime = now` before a fresh state replaces it.
`now` models `Date.now()` at the top of the handler and `today` the epoch-day
of the `new Date()` read inside settlement. -/
def heartbeatPost (username : String) (body : LiveHeartbeatRequest)
    (now today : Nat) (store : Store) : Store :=
  if body.sessionId = "" ∨ body.channelId = "" ∨ body.channelName = "" ∨
      body.sourceKey = "" then
    store
  else
    match store.watching username body.sessionId with
    | some lastState =>
      if lastState.channelId ≠ body.channelId then
        (settleWatchSession username lastState now today store).setWatching
          username body.sessionId (mkNewWatchState body now)
      else
        store.setWatching username body.sessionId
          { lastState with
            lastHeartbeat := now
            heartbeatCount := lastState.heartbeatCount + 1 }
    | none =>
      store.setWatching username body.sessionId (mkNewWatchState body now)

/-- `POST /api/live/heartbeat/end`.  A missing `sessionId` returns a 400
without touching the store; an absent watch state is a no-op; a present one
is settled with `endTime = now` and then deleted. -/
def endWatchPost (username sessionId : String) (now today : Nat)
    (store : Store) : Store :=
  if sessionId = "" then store
  else
    match store.watching username sessionId with
    | some state =>
      (settleWatchSession username state now today store).delWatching
        username sessionId
    | none => store

/-- A sequence of heartbeats with a fixed body; each element of `times` is the
`(now, today)` pair of one call. -/
def heartbeatSeq (username : String) (body : LiveHeartbeatRequest)
    (times : List (Nat × Nat)) (store : Store) : Store :=
  times.foldl (fun st t => heartbeatPost username body t.1 t.2 st) store

/-- The arguments of one settlement invocation. -/
structure SettleCall where
  username : String
  state : LiveWatchState
  endTime : Nat
  today : Nat

/-- A sequence of settlement invocations applied in order. -/
def settleSeq (calls : List SettleCall) (store : Store) : Store :=
  calls.foldl
    (fun st c => settleWatchSession c.username c.state c.endTime c.today st)
    store

/-- Sum of the `duration` fields of a session list. -/
def sumDurations (l : List LiveWatchSession) : Nat :=
  (l.map (fun s => s.duration)).sum

/-- One value of the per-user `channelWatchMap` in the report route. -/
structure FavoriteChannel where
  channelId : String
  channelName : String
  channelGroup : String
  watchTime : Nat
  watchCount : Nat
  deriving DecidableEq

/-- One value of the global `channelStatsMap` in the report route;
`users` models the JS `Set<string>` as a duplicate-free insertion-ordered
list. -/
structure GlobalChannelAcc where
  channelId : String
  channelName : String
  channelGroup : String
  totalWatchTime : Nat
  totalSessions : Nat
  users : List String
  deriving DecidableEq

/-- One entry of the `hotChannels` ranking in the report output. -/
structure HotChannel where
  channelId : String
  channelName : String
  channelGroup : String
  totalWatchTime : Nat
  totalUsers : Nat
  totalSessions : Nat
  deriving DecidableEq

/-- One entry of the `dailyTrend` sequence; `date` is the epoch-day number
modelling the `YYYY-MM-DD` key. -/
structure DailyTrendEntry where
  date : Nat
  watchTime : Nat
  sessions : Nat
  users : Nat
  deriving DecidableEq

/-- `UserLiveStats` from `@/lib/types`: one per-user block of the report. -/
structure UserLiveStats where
  username : String
  totalWatchTime : Nat
  totalSessions : Nat
  lastWatchTime : Nat
  favoriteChannels : List FavoriteChannel
  recentSessions : List LiveWatchSession
  deriving DecidableEq

/-- `GlobalLiveStats` from `@/lib/types`: the full report. -/
structure GlobalLiveStats where
  totalUsers : Nat
  totalWatchTime : Nat
  totalSessions : Nat
  todayActiveUsers : Nat
  hotChannels : List HotChannel
  dailyTrend : List DailyTrendEntry
  userStats : List UserLiveStats
  deriving DecidableEq

/-- The stable `Array.prototype.sort` with comparator
`(a, b) => key(b) - key(a)`, i.e. descending by `key` with ties kept in
input order; `List.insertionSort` is such a stable sort. -/
def sortByDesc {α : Type} (key : α → Nat) (l : List α) : List α :=
  List.insertionSort (fun a b => key b ≤ key a) l

/-- One step of the per-user `channelWatchMap` fold: `Map.get` then in-place
update, or `Map.set` of a fresh entry (appended, `Map` is
insertion-ordered). -/
def updateChannelWatch (m : List FavoriteChannel) (s : LiveWatchSession) :
    List FavoriteChannel :=
  if s.channelId ∈ m.map (fun e => e.channelId) then
    m.map (fun e =>
      if e.channelId = s.channelId then
        { e with watchTime := e.watchTime + s.duration
                 watchCount := e.watchCount + 1 }
      else e)
  else
    m ++ [{ channelId := s.channelId
            channelName := s.channelName
            channelGroup := s.channelGroup
            watchTime := s.duration
            watchCount := 1 }]

/-- One step of the global `channelStatsMap` fold for a session of user
`u`. -/
def updateGlobalChannel (m : List GlobalChannelAcc) (u : String)
    (s : LiveWatchSession) : List GlobalChannelAcc :=
  if s.channelId ∈ m.map (fun e => e.channelId) then
    m.map (fun e =>
      if e.channelId = s.channelId then
        { e with totalWatchTime := e.totalWatchTime + s.duration
                 totalSessions := e.totalSessions + 1
                 users := if u ∈ e.users then e.users else e.users ++ [u] }
      else e)
  else
    m ++ [{ channelId := s.channelId
            channelName := s.channelName
            channelGroup := s.channelGroup
            totalWatchTime := s.duration
            totalSessions := 1
            users := [u] }]

/-- The body of the report's `for (const session of sessions)` loop, which
advances the per-user map and the global map together. -/
def sessionStep (u : String)
    (acc : List FavoriteChannel × List GlobalChannelAcc)
    (s : LiveWatchSession) :
    List FavoriteChannel × List GlobalChannelAcc :=
  (updateChannelWatch acc.1 s, updateGlobalChannel acc.2 u s)

/-- The per-user channel accumulation on its own. -/
def accumFav (sessions : List LiveWatchSession) : List FavoriteChannel :=
  sessions.foldl updateChannelWatch []

/-- `favoriteChannels`: sort the accumulated per-channel values descending by
watch time (stable) and keep the first 5. -/
def favoriteChannelsOf (sessions : List LiveWatchSession) :
    List FavoriteChannel :=
  (sortByDesc (fun e => e.watchTime) (accumFav sessions)).take 5

/-- The mutable state of the report's user loop:
the `userStats` array, the two running totals, and the global channel map. -/
structure ScanAcc where
  userStats : List UserLiveStats
  totalWatchTime : Nat
  totalSessions : Nat
  channelMap : List GlobalChannelAcc

/-- One iteration of the report's `for (const user of allUsers)` loop. -/
def processUser (store : Store) (acc : ScanAcc) (u : String) : ScanAcc :=
  let stats? := store.stats u
  let sessions := (store.sessions u).getD []
  if stats?.isNone ∧ sessions = [] then acc
  else
    let folded := sessions.foldl (sessionStep u) ([], acc.channelMap)
    let stats := stats?.getD defaultUserStats
    let userStat : UserLiveStats :=
      { username := u
        totalWatchTime := stats.totalWatchTime
        totalSessions := stats.totalSessions
        lastWatchTime := stats.lastWatchTime
        favoriteChannels := (sortByDesc (fun e => e.watchTime) folded.1).take 5
        recentSessions := sessions.take 10 }
    { userStats := acc.userStats ++ [userStat]
      totalWatchTime := acc.totalWatchTime + userStat.totalWatchTime
      totalSessions := acc.totalSessions + userStat.totalSessions
      channelMap := folded.2 }

/-- The projection of a global channel accumulator into a `hotChannels`
entry (`totalUsers` is the set size). -/
def toHotChannel (c : GlobalChannelAcc) : HotChannel :=
  { channelId := c.channelId
    channelName := c.channelName
    channelGroup := c.channelGroup
    totalWatchTime := c.totalWatchTime
    totalUsers := c.users.length
    totalSessions := c.totalSessions }

/-- The report's 7-day trend loop (`for (let i = 6; i >= 0; i--)`): each
iteration reads `live:daily:` at the day of `nowMs - i*MS_PER_DAY`,
defaulting every field to zero when the key is absent. -/
def dailyTrendOf (store : Store) (nowMs : Nat) : List DailyTrendEntry :=
  (List.range 7).map (fun j =>
    let dateKey := (nowMs - (6 - j) * MS_PER_DAY) / MS_PER_DAY
    { date := dateKey
      watchTime := ((store.daily dateKey).map DailyStats.watchTime).getD 0
      sessions := ((store.daily dateKey).map DailyStats.sessions).getD 0
      users := ((store.daily dateKey).map (fun d => d.users.length)).getD 0 })

/-- `GET /api/admin/live-stats`, recomputation path: scan every user of the
directory, sort the per-user blocks, build the hot-channel ranking, the 7-day
trend and the top-level totals.  `users` is the externally supplied user
directory (`config.UserConfig.Users` usernames) and `nowMs` the current
timestamp. -/
def buildReport (users : List String) (store : Store) (nowMs : Nat) :
    GlobalLiveStats :=
  let scan := users.foldl (processUser store)
    { userStats := [], totalWatchTime := 0, totalSessions := 0, channelMap := [] }
  let sortedUserStats := sortByDesc (fun u => u.totalWatchTime) scan.userStats
  let hotChannels :=
    (sortByDesc (fun c => c.totalWatchTime)
      (scan.channelMap.map toHotChannel)).take 10
  let todayKey := nowMs / MS_PER_DAY
  { totalUsers := sortedUserStats.length
    totalWatchTime := scan.totalWatchTime
    totalSessions := scan.totalSessions
    todayActiveUsers := ((store.daily todayKey).map (fun d => d.users.length)).getD 0
    hotChannels := hotChannels
    dailyTrend := dailyTrendOf store nowMs
    userStats := sortedUserStats }

/-- The stream of sessions the report scans, tagged with the user each one
belongs to, in scan order. -/
def scannedSessions (users : List String) (store : Store) :
    List (String × LiveWatchSession) :=
  users.flatMap (fun u => ((store.sessions u).getD []).map (fun s => (u, s)))

/-- The global channel accumulation as a fold over the scanned stream. -/
def accumGlobal (scanned : List (String × LiveWatchSession)) :
    List GlobalChannelAcc :=
  scanned.foldl (fun m p => updateGlobalChannel m p.1 p.2) []

/-- First-occurrence deduplication, the order in which a JS `Map` or `Set`
enumerates keys inserted by a left-to-right fold. -/
def firstDedup (l : List String) : List String :=
  l.foldl (fun acc x => if x ∈ acc then acc else acc ++ [x]) []

/-- Total watch duration of the sessions of one channel within a list. -/
def channelDuration (sessions : List LiveWatchSession) (cid : String) : Nat :=
  sumDurations (sessions.filter (fun s => s.channelId = cid))

/-- Number of sessions of one channel within a list. -/
def channelCount (sessions : List LiveWatchSession) (cid : String) : Nat :=
  (sessions.filter (fun s => s.channelId = cid)).length

/-- The initial accumulator of the report's user loop. -/
def emptyScanAcc : ScanAcc :=
  { userStats := [], totalWatchTime := 0, totalSessions := 0, channelMap := [] }

/-- Correctness of a favorite-channel list w.r.t. a session list: it is the
first 5 of a stable descending sort of the per-channel accumulation, sorted
by watch time, each entry carrying the per-channel duration sum and session
count, accumulated in first-occurrence order with ties keeping that order. -/
def FavListCorrect (sessions : List LiveWatchSession)
    (fav : List FavoriteChannel) : Prop :=
  fav = (sortByDesc (fun e => e.watchTime) (accumFav sessions)).take 5 ∧
  fav.length = min 5 (firstDedup (sessions.map (fun s => s.channelId))).length ∧
  fav.Pairwise (fun a b => b.watchTime ≤ a.watchTime) ∧
  (∀ e ∈ fav, e.watchTime = channelDuration sessions e.channelId ∧
              e.watchCount = channelCount sessions e.channelId) ∧
  (accumFav sessions).map (fun e => e.channelId) =
      firstDedup (sessions.map (fun s => s.channelId)) ∧
  (∀ v, (sortByDesc (fun e => e.watchTime) (accumFav sessions)).filter
          (fun e => e.watchTime = v) =
        (accumFav sessions).filter (fun e => e.watchTime = v))

/-- Correctness of a hot-channel ranking w.r.t. the scanned (user, session)
stream: first 10 of the stable descending sort of the global accumulation,
each entry carrying the channel's total duration, session count and
distinct-user count, with ties keeping first-occurrence order. -/
def HotListCorrect (scanned : List (String × LiveWatchSession))
    (hot : List HotChannel) : Prop :=
  hot = (sortByDesc (fun c => c.totalWatchTime)
          ((accumGlobal scanned).map toHotChannel)).take 10 ∧
  hot.length = min 10 (firstDedup (scanned.map (fun p => p.2.channelId))).length ∧
  hot.Pairwise (fun a b => b.totalWatchTime ≤ a.totalWatchTime) ∧
  (∀ e ∈ hot,
     e.totalWatchTime = channelDuration (scanned.map Prod.snd) e.channelId ∧
     e.totalSessions = channelCount (scanned.map Prod.snd) e.channelId ∧
     e.totalUsers = (firstDedup ((scanned.filter
        (fun p => p.2.channelId = e.channelId)).map (fun p => p.1))).length) ∧
  (∀ v, (sortByDesc (fun c => c.totalWatchTime)
          ((accumGlobal scanned).map toHotChannel)).filter
            (fun c => c.totalWatchTime = v) =
        ((accumGlobal scanned).map toHotChannel).filter
          (fun c => c.totalWatchTime = v))

/-- What one per-user block of the report contains, as a function of the
store: totals read from `live:stats:` (zero defaults), favorites and recent
sessions derived from `live:sessions:`. -/
def UserStatEntryOk (store : Store) (e : UserLiveStats) : Prop :=
  e.favoriteChannels = favoriteChannelsOf ((store.sessions e.username).getD []) ∧
  e.totalWatchTime = ((store.stats e.username).getD defaultUserStats).totalWatchTime ∧
  e.totalSessions = ((store.stats e.username).getD defaultUserStats).totalSessions ∧
  e.lastWatchTime = ((store.stats e.username).getD defaultUserStats).lastWatchTime ∧
  e.recentSessions = ((store.sessions e.username).getD []).take 10

/-- The settlement invariant linking the stored session list to the user's
stats: the list holds the most recent `min totalSessions 100` sessions, its
duration sum never exceeds `totalWatchTime`, and matches it exactly while no
eviction has happened. -/
def SessionsStatsInv (store : Store) : Prop :=
  ∀ u,
    ((store.sessions u).getD []).length =
      min ((store.stats u).getD defaultUserStats).totalSessions 100 ∧
    sumDurations ((store.sessions u).getD []) ≤
      ((store.stats u).getD defaultUserStats).totalWatchTime ∧
    (((store.stats u).getD defaultUserStats).totalSessions ≤ 100 →
      sumDurations ((store.sessions u).getD []) =
        ((store.stats u).getD defaultUserStats).totalWatchTime)

/-- Per-channel accumulation invariant for the per-user map of the report:
keys are the session channel ids in first-occurrence order and every entry
carries the per-channel duration sum and session count. -/
def FavAccOk (done : List LiveWatchSession) (m : List FavoriteChannel) : Prop :=
  m.map (fun e => e.channelId) = firstDedup (done.map (fun s => s.channelId)) ∧
  ∀ e ∈ m, e.watchTime = channelDuration done e.channelId ∧
           e.watchCount = channelCount done e.channelId

/-- Per-channel accumulation invariant for the global map of the report. -/
def GlobalAccOk (done : List (String × LiveWatchSession))
    (m : List GlobalChannelAcc) : Prop :=
  m.map (fun e => e.channelId) = firstDedup (done.map (fun p => p.2.channelId)) ∧
  ∀ e ∈ m,
    e.totalWatchTime = channelDuration (done.map Prod.snd) e.channelId ∧
    e.totalSessions = channelCount (done.map Prod.snd) e.channelId ∧
    e.users = firstDedup ((done.filter
      (fun p => p.2.channelId = e.channelId)).map (fun p => p.1))

/-- Concrete state: channel `c1` after 4 heartbeats. -/
def stA : LiveWatchState :=
  { channelId := "c1", channelName := "News", channelGroup := "g"
    channelLogo := "l", sourceKey := "s1", sourceName := "S"
    startTime := 0, lastHeartbeat := 90, heartbeatCount := 4 }

/-- Concrete state: channel `c1` after a single heartbeat. -/
def stHB1 : LiveWatchState :=
  { channelId := "c1", channelName := "News", channelGroup := "g"
    channelLogo := "l", sourceKey := "s1", sourceName := "S"
    startTime := 0, lastHeartbeat := 0, heartbeatCount := 1 }

/-- Concrete state: channel `c1` after 2 heartbeats. -/
def cex4State : LiveWatchState :=
  { channelId := "c1", channelName := "News", channelGroup := "g"
    channelLogo := "l", sourceKey := "s1", sourceName := "S"
    startTime := 0, lastHeartbeat := 30, heartbeatCount := 2 }

/-- Concrete heartbeat body for channel `c1` in tab `tab1`. -/
def bodyA : LiveHeartbeatRequest :=
  { sessionId := "tab1", channelId := "c1", channelName := "News"
    channelGroup := "g", channelLogo := "l", sourceKey := "s1"
    sourceName := "S" }

/-- Concrete heartbeat body for channel `c2` in tab `tab1`. -/
def bodyB : LiveHeartbeatRequest :=
  { sessionId := "tab1", channelId := "c2", channelName := "Sports"
    channelGroup := "g", channelLogo := "l", sourceKey := "s1"
    sourceName := "S" }

/-- A store whose only key is the live watch state of `alice`/`tab1`. -/
def store1 : Store := emptyStore.setWatching "alice" "tab1" stA

/-- A settlement call recording one heartbeat worth of watching. -/
def c3call : SettleCall :=
  { username := "alice", state := stHB1, endTime := 100, today := 0 }

/-- The session produced by settling `stHB1` at time 100. -/
def sess1 : LiveWatchSession := mkWatchSession stHB1 100

/-- A store with one stored session for `alice` and no stats record. -/
def c10store : Store :=
  { emptyStore with
    sessions := fun u => if u = "alice" then some [sess1] else none }

/-- A one-user directory. -/
def c10users : List String := ["alice"]

/-- A store whose session list for `alice` is at full capacity. -/
def c6store : Store :=
  { emptyStore with
    sessions := fun u =>
      if u = "alice" then some (List.replicate 100 sess1) else none }

/-- Four heartbeat instants 30 seconds apart, all on day 0. -/
def hbTimes : List (Nat × Nat) := [(0, 0), (30000, 0), (60000, 0), (90000, 0)]

/-- The favorite-channel entry produced by one `c1` session of 30 seconds. -/
def favC1 : FavoriteChannel :=
  { channelId := "c1", channelName := "News", channelGroup := "g"
    watchTime := 30, watchCount := 1 }

/-- The report block produced for `alice` from `c10store`. -/
def c8entry : UserLiveStats :=
  { username := "alice", totalWatchTime := 0, totalSessions := 0
    lastWatchTime := 0, favoriteChannels := [favC1]
    recentSessions := [sess1] }

theorem sortByDesc_perm {α : Type} (key : α → Nat) (l : List α) :
    List.Perm (sortByDesc key l) l :=
  List.perm_insertionSort _ l

theorem mem_sortByDesc {α : Type} (key : α → Nat) {l : List α} {x : α} :
    x ∈ sortByDesc key l ↔ x ∈ l :=
  (sortByDesc_perm key l).mem_iff

theorem length_sortByDesc {α : Type} (key : α → Nat) (l : List α) :
    (sortByDesc key l).length = l.length :=
  (sortByDesc_perm key l).length_eq

theorem sortByDesc_sorted {α : Type} (key : α → Nat) (l : List α) :
    (sortByDesc key l).Pairwise (fun a b => key b ≤ key a) := by
  haveI : IsTotal α (fun a b => key b ≤ key a) :=
    ⟨fun a b => Nat.le_total (key b) (key a)⟩
  haveI : IsTrans α (fun a b => key b ≤ key a) :=
    ⟨fun _ _ _ hab hbc => Nat.le_trans hbc hab⟩
  exact List.sorted_insertionSort _ l

theorem filter_orderedInsert_key {α : Type} (key : α → Nat) (v : Nat) (x : α)
    (l : List α) :
    (List.orderedInsert (fun a b => key b ≤ key a) x l).filter
        (fun e => key e = v) =
      if key x = v then x :: l.filter (fun e => key e = v)
      else l.filter (fun e => key e = v) := by
  induction l with
  | nil =>
    by_cases h : key x = v <;> simp [List.orderedInsert, List.filter, h]
  | cons b l ih =>
    show (if key b ≤ key x then _ else _ : List α).filter _ = _
    by_cases hxb : key b ≤ key x
    · rw [if_pos hxb]
      by_cases h : key x = v <;> simp [List.filter_cons, h]
    · rw [if_neg hxb, List.filter_cons]
      by_cases hb : key b = v
      · have : ¬ key x = v := by omega
        simp [hb, this, ih, List.filter_cons]
      · simp only [ih, List.filter_cons]
        by_cases h : key x = v <;> simp [h, hb]

theorem filter_sortByDesc_key {α : Type} (key : α → Nat) (v : Nat)
    (l : List α) :
    (sortByDesc key l).filter (fun e => key e = v) =
      l.filter (fun e => key e = v) := by
  induction l with
  | nil => rfl
  | cons x xs ih =>
    show (List.orderedInsert _ x (List.insertionSort _ xs)).filter _ = _
    rw [filter_orderedInsert_key key v x (List.insertionSort _ xs)]
    by_cases h : key x = v
    · rw [if_pos h]
      rw [show List.insertionSort (fun a b => key b ≤ key a) xs = sortByDesc key xs from rfl, ih]
      simp [List.filter_cons, h]
    · rw [if_neg h]
      rw [show List.insertionSort (fun a b => key b ≤ key a) xs = sortByDesc key xs from rfl, ih]
      simp [List.filter_cons, h]

theorem sum_map_sortByDesc {α : Type} (key f : α → Nat) (l : List α) :
    ((sortByDesc key l).map f).sum = (l.map f).sum :=
  ((sortByDesc_perm key l).map f).sum_eq

theorem truncate100_length (l : List LiveWatchSession) :
    (truncate100 l).length = min l.length 100 := by
  unfold truncate100
  split_ifs with h
  · simp [List.length_take]; omega
  · omega

theorem truncate100_of_le {l : List LiveWatchSession} (h : l.length ≤ 100) :
    truncate100 l = l :=
  if_neg (by omega)

theorem truncate100_head (x : LiveWatchSession) (l : List LiveWatchSession) :
    (truncate100 (x :: l)).head? = some x := by
  unfold truncate100
  split_ifs with h
  · cases l <;> rfl
  · rfl

theorem sumDurations_append (l l' : List LiveWatchSession) :
    sumDurations (l ++ l') = sumDurations l + sumDurations l' := by
  simp [sumDurations]

theorem sumDurations_take_le (n : Nat) (l : List LiveWatchSession) :
    sumDurations (l.take n) ≤ sumDurations l := by
  conv_rhs => rw [← List.take_append_drop n l]
  rw [sumDurations_append]
  exact Nat.le_add_right _ _

theorem sumDurations_truncate100_le (l : List LiveWatchSession) :
    sumDurations (truncate100 l) ≤ sumDurations l := by
  unfold truncate100
  split_ifs with h
  · exact sumDurations_take_le 100 l
  · exact Nat.le_refl _

theorem settle_skip (username : String) (state : LiveWatchState)
    (endTime today : Nat) (store : Store)
    (h : state.heartbeatCount * HEARTBEAT_INTERVAL < MIN_SESSION_DURATION ∨
      MAX_SESSION_DURATION < state.heartbeatCount * HEARTBEAT_INTERVAL) :
    settleWatchSession username state endTime today store = store := by
  simp only [settleWatchSession]
  rcases h with h | h
  · rw [if_pos h]
  · rcases Nat.lt_or_ge (state.heartbeatCount * HEARTBEAT_INTERVAL)
      MIN_SESSION_DURATION with h' | h'
    · rw [if_pos h']
    · rw [if_neg (Nat.not_lt.mpr h'), if_pos h]

theorem settle_watching (username : String) (state : LiveWatchState)
    (endTime today : Nat) (store : Store) :
    (settleWatchSession username state endTime today store).watching =
      store.watching := by
  simp only [settleWatchSession]
  split_ifs <;> rfl

theorem settle_sessions_self (username : String) (state : LiveWatchState)
    (endTime today : Nat) (store : Store)
    (h1 : MIN_SESSION_DURATION ≤ state.heartbeatCount * HEARTBEAT_INTERVAL)
    (h2 : state.heartbeatCount * HEARTBEAT_INTERVAL ≤ MAX_SESSION_DURATION) :
    (settleWatchSession username state endTime today store).sessions username =
      some (truncate100 (mkWatchSession state endTime ::
        (store.sessions username).getD [])) := by
  simp only [settleWatchSession]
  rw [if_neg (Nat.not_lt.mpr h1), if_neg (Nat.not_lt.mpr h2)]
  simp

theorem settle_sessions_other (username : String) (state : LiveWatchState)
    (endTime today : Nat) (store : Store) {u : String} (hu : u ≠ username) :
    (settleWatchSession username state endTime today store).sessions u =
      store.sessions u := by
  simp only [settleWatchSession]
  split_ifs <;> simp [hu]

theorem settle_stats_self (username : String) (state : LiveWatchState)
    (endTime today : Nat) (store : Store)
    (h1 : MIN_SESSION_DURATION ≤ state.heartbeatCount * HEARTBEAT_INTERVAL)
    (h2 : state.heartbeatCount * HEARTBEAT_INTERVAL ≤ MAX_SESSION_DURATION) :
    (settleWatchSession username state endTime today store).stats username =
      some (bumpUserStats ((store.stats username).getD defaultUserStats)
        (state.heartbeatCount * HEARTBEAT_INTERVAL) endTime) := by
  simp only [settleWatchSession]
  rw [if_neg (Nat.not_lt.mpr h1), if_neg (Nat.not_lt.mpr h2)]
  simp

theorem settle_stats_other (username : String) (state : LiveWatchState)
    (endTime today : Nat) (store : Store) {u : String} (hu : u ≠ username) :
    (settleWatchSession username state endTime today store).stats u =
      store.stats u := by
  simp only [settleWatchSession]
  split_ifs <;> simp [hu]

theorem settle_daily_self (username : String) (state : LiveWatchState)
    (endTime today : Nat) (store : Store)
    (h1 : MIN_SESSION_DURATION ≤ state.heartbeatCount * HEARTBEAT_INTERVAL)
    (h2 : state.heartbeatCount * HEARTBEAT_INTERVAL ≤ MAX_SESSION_DURATION) :
    (settleWatchSession username state endTime today store).daily today =
      some (bumpDailyStats ((store.daily today).getD defaultDailyStats)
        username (state.heartbeatCount * HEARTBEAT_INTERVAL)) := by
  simp only [settleWatchSession]
  rw [if_neg (Nat.not_lt.mpr h1), if_neg (Nat.not_lt.mpr h2)]
  simp

theorem settle_daily_other (username : String) (state : LiveWatchState)
    (endTime today : Nat) (store : Store) {d : Nat} (hd : d ≠ today) :
    (settleWatchSession username state endTime today store).daily d =
      store.daily d := by
  simp only [settleWatchSession]
  split_ifs <;> simp [hd]

theorem settle_channel_self (username : String) (state : LiveWatchState)
    (endTime today : Nat) (store : Store)
    (h1 : MIN_SESSION_DURATION ≤ state.heartbeatCount * HEARTBEAT_INTERVAL)
    (h2 : state.heartbeatCount * HEARTBEAT_INTERVAL ≤ MAX_SESSION_DURATION) :
    (settleWatchSession username state endTime today store).channel
        state.channelId =
      some (bumpChannelStats
        ((store.channel state.channelId).getD (initChannelStats state))
        username (state.heartbeatCount * HEARTBEAT_INTERVAL)) := by
  simp only [settleWatchSession]
  rw [if_neg (Nat.not_lt.mpr h1), if_neg (Nat.not_lt.mpr h2)]
  simp

theorem mem_dedup_foldl (l : List String) (acc : List String) (x : String) :
    x ∈ l.foldl (fun a y => if y ∈ a then a else a ++ [y]) acc ↔
      x ∈ acc ∨ x ∈ l := by
  induction l generalizing acc with
  | nil => simp
  | cons y ys ih =>
    simp only [List.foldl_cons]
    rw [ih]
    by_cases h : y ∈ acc
    · simp only [if_pos h, List.mem_cons]
      constructor
      · tauto
      · rintro (hx | hx | hx)
        · exact Or.inl hx
        · exact Or.inl (hx ▸ h)
        · exact Or.inr hx
    · simp only [if_neg h, List.mem_append, List.mem_singleton, List.mem_cons]
      tauto

theorem mem_firstDedup {l : List String} {x : String} :
    x ∈ firstDedup l ↔ x ∈ l := by
  unfold firstDedup
  rw [mem_dedup_foldl]
  simp

theorem firstDedup_append_singleton (l : List String) (x : String) :
    firstDedup (l ++ [x]) =
      if x ∈ firstDedup l then firstDedup l else firstDedup l ++ [x] := by
  simp [firstDedup, List.foldl_append]

theorem channelDuration_append (l l' : List LiveWatchSession) (cid : String) :
    channelDuration (l ++ l') cid =
      channelDuration l cid + channelDuration l' cid := by
  simp [channelDuration, sumDurations, List.filter_append]

theorem channelDuration_singleton (s : LiveWatchSession) (cid : String) :
    channelDuration [s] cid = if s.channelId = cid then s.duration else 0 := by
  by_cases h : s.channelId = cid <;>
    simp [channelDuration, sumDurations, List.filter, h]

theorem channelCount_append (l l' : List LiveWatchSession) (cid : String) :
    channelCount (l ++ l') cid = channelCount l cid + channelCount l' cid := by
  simp [channelCount, List.filter_append]

theorem channelCount_singleton (s : LiveWatchSession) (cid : String) :
    channelCount [s] cid = if s.channelId = cid then 1 else 0 := by
  by_cases h : s.channelId = cid <;> simp [channelCount, List.filter, h]

theorem channelDuration_eq_zero (l : List LiveWatchSession) (cid : String)
    (h : cid ∉ l.map (fun s => s.channelId)) : channelDuration l cid = 0 := by
  have hf : l.filter (fun s => s.channelId = cid) = [] := by
    rw [List.filter_eq_nil_iff]
    intro s hs
    simp only [decide_eq_true_eq]
    intro hc
    exact h (List.mem_map.mpr ⟨s, hs, hc⟩)
  simp [channelDuration, hf, sumDurations]

theorem channelCount_eq_zero (l : List LiveWatchSession) (cid : String)
    (h : cid ∉ l.map (fun s => s.channelId)) : channelCount l cid = 0 := by
  have hf : l.filter (fun s => s.channelId = cid) = [] := by
    rw [List.filter_eq_nil_iff]
    intro s hs
    simp only [decide_eq_true_eq]
    intro hc
    exact h (List.mem_map.mpr ⟨s, hs, hc⟩)
  simp [channelCount, hf]


theorem updateChannelWatch_keys (m : List FavoriteChannel)
    (s : LiveWatchSession) (hc : s.channelId ∈ m.map (fun e => e.channelId)) :
    (updateChannelWatch m s).map (fun e => e.channelId) =
      m.map (fun e => e.channelId) := by
  unfold updateChannelWatch
  rw [if_pos hc, List.map_map]
  apply List.map_congr_left
  intro e _
  by_cases he : e.channelId = s.channelId <;> simp [he]

theorem favAccOk_step (done : List LiveWatchSession) (m : List FavoriteChannel)
    (s : LiveWatchSession) (h : FavAccOk done m) :
    FavAccOk (done ++ [s]) (updateChannelWatch m s) := by
  obtain ⟨hkeys, hent⟩ := h
  constructor
  · by_cases hc : s.channelId ∈ m.map (fun e => e.channelId)
    · rw [updateChannelWatch_keys m s hc, hkeys, List.map_append,
        List.map_cons, List.map_nil, firstDedup_append_singleton,
        if_pos (mem_firstDedup.mpr (mem_firstDedup.mp (hkeys ▸ hc)))]
    · unfold updateChannelWatch
      rw [if_neg hc, List.map_append, List.map_append, List.map_cons,
        List.map_nil, List.map_cons, List.map_nil, hkeys,
        firstDedup_append_singleton, if_neg (by rw [← hkeys]; exact hc)]
  · intro e' he'
    unfold updateChannelWatch at he'
    by_cases hc : s.channelId ∈ m.map (fun e => e.channelId)
    · rw [if_pos hc] at he'
      obtain ⟨e, he, heq⟩ := List.mem_map.mp he'
      obtain ⟨hw, hcnt⟩ := hent e he
      by_cases hech : e.channelId = s.channelId
      · rw [if_pos hech] at heq
        subst heq
        refine ⟨?_, ?_⟩
        · dsimp only
          rw [channelDuration_append, channelDuration_singleton,
            if_pos hech.symm, hw]
        · dsimp only
          rw [channelCount_append, channelCount_singleton,
            if_pos hech.symm, hcnt]
      · rw [if_neg hech] at heq
        subst heq
        refine ⟨?_, ?_⟩
        · rw [channelDuration_append, channelDuration_singleton,
            if_neg (fun hh => hech hh.symm), Nat.add_zero]
          exact hw
        · rw [channelCount_append, channelCount_singleton,
            if_neg (fun hh => hech hh.symm), Nat.add_zero]
          exact hcnt
    · rw [if_neg hc] at he'
      rcases List.mem_append.mp he' with he | he
      · obtain ⟨hw, hcnt⟩ := hent e' he
        have hne : s.channelId ≠ e'.channelId := fun hh =>
          hc (hh ▸ List.mem_map.mpr ⟨e', he, rfl⟩)
        refine ⟨?_, ?_⟩
        · rw [channelDuration_append, channelDuration_singleton,
            if_neg hne, Nat.add_zero]
          exact hw
        · rw [channelCount_append, channelCount_singleton,
            if_neg hne, Nat.add_zero]
          exact hcnt
      · rw [List.mem_singleton] at he
        subst he
        have hnotdone : s.channelId ∉ done.map (fun t => t.channelId) :=
          fun hh => hc (hkeys ▸ mem_firstDedup.mpr hh)
        refine ⟨?_, ?_⟩
        · dsimp only
          rw [channelDuration_append, channelDuration_singleton, if_pos rfl,
            channelDuration_eq_zero done _ hnotdone, Nat.zero_add]
        · dsimp only
          rw [channelCount_append, channelCount_singleton, if_pos rfl,
            channelCount_eq_zero done _ hnotdone, Nat.zero_add]

theorem favAccOk_foldl :
    ∀ (sessions done : List LiveWatchSession) (m : List FavoriteChannel),
      FavAccOk done m →
      FavAccOk (done ++ sessions) (sessions.foldl updateChannelWatch m)
  | [], done, m, h => by simpa using h
  | s :: rest, done, m, h => by
    have h2 := favAccOk_foldl rest (done ++ [s]) (updateChannelWatch m s)
      (favAccOk_step done m s h)
    simpa [List.append_assoc] using h2

theorem favAccOk_accumFav (sessions : List LiveWatchSession) :
    FavAccOk sessions (accumFav sessions) := by
  have h := favAccOk_foldl sessions [] [] ⟨rfl, by simp⟩
  simpa [accumFav] using h

theorem updateGlobalChannel_keys (m : List GlobalChannelAcc) (u : String)
    (s : LiveWatchSession) (hc : s.channelId ∈ m.map (fun e => e.channelId)) :
    (updateGlobalChannel m u s).map (fun e => e.channelId) =
      m.map (fun e => e.channelId) := by
  unfold updateGlobalChannel
  rw [if_pos hc, List.map_map]
  apply List.map_congr_left
  intro e _
  by_cases he : e.channelId = s.channelId <;> simp [he]

theorem filter_pair_append (done : List (String × LiveWatchSession))
    (p : String × LiveWatchSession) (cid : String) :
    (done ++ [p]).filter (fun q => q.2.channelId = cid) =
      done.filter (fun q => q.2.channelId = cid) ++
        (if p.2.channelId = cid then [p] else []) := by
  rw [List.filter_append]
  by_cases h : p.2.channelId = cid <;> simp [List.filter, h]

theorem filter_pair_eq_nil (done : List (String × LiveWatchSession))
    (cid : String) (h : cid ∉ done.map (fun q => q.2.channelId)) :
    done.filter (fun q => q.2.channelId = cid) = [] := by
  rw [List.filter_eq_nil_iff]
  intro q hq
  simp only [decide_eq_true_eq]
  intro hc
  exact h (List.mem_map.mpr ⟨q, hq, hc⟩)

theorem globalAccOk_step (done : List (String × LiveWatchSession))
    (m : List GlobalChannelAcc) (u : String) (s : LiveWatchSession)
    (h : GlobalAccOk done m) :
    GlobalAccOk (done ++ [(u, s)]) (updateGlobalChannel m u s) := by
  obtain ⟨hkeys, hent⟩ := h
  constructor
  · by_cases hc : s.channelId ∈ m.map (fun e => e.channelId)
    · rw [updateGlobalChannel_keys m u s hc, hkeys, List.map_append,
        List.map_cons, List.map_nil, firstDedup_append_singleton,
        if_pos (hkeys ▸ hc)]
    · unfold updateGlobalChannel
      rw [if_neg hc, List.map_append, List.map_append, List.map_cons,
        List.map_nil, List.map_cons, List.map_nil, hkeys,
        firstDedup_append_singleton, if_neg (by rw [← hkeys]; exact hc)]
  · intro e' he'
    unfold updateGlobalChannel at he'
    have hmapsnd : (done ++ [(u, s)]).map Prod.snd = done.map Prod.snd ++ [s] := by
      simp
    by_cases hc : s.channelId ∈ m.map (fun e => e.channelId)
    · rw [if_pos hc] at he'
      obtain ⟨e, he, heq⟩ := List.mem_map.mp he'
      obtain ⟨hw, hcnt, hus⟩ := hent e he
      by_cases hech : e.channelId = s.channelId
      · rw [if_pos hech] at heq
        subst heq
        refine ⟨?_, ?_, ?_⟩
        · dsimp only
          rw [hmapsnd, channelDuration_append, channelDuration_singleton,
            if_pos hech.symm, hw]
        · dsimp only
          rw [hmapsnd, channelCount_append, channelCount_singleton,
            if_pos hech.symm, hcnt]
        · dsimp only
          rw [filter_pair_append, if_pos hech.symm, List.map_append,
            List.map_cons, List.map_nil, firstDedup_append_singleton, ← hus]
      · rw [if_neg hech] at heq
        subst heq
        have hne : s.channelId ≠ e.channelId := fun hh => hech hh.symm
        refine ⟨?_, ?_, ?_⟩
        · rw [hmapsnd, channelDuration_append, channelDuration_singleton,
            if_neg hne, Nat.add_zero]
          exact hw
        · rw [hmapsnd, channelCount_append, channelCount_singleton,
            if_neg hne, Nat.add_zero]
          exact hcnt
        · rw [filter_pair_append, if_neg hne, List.append_nil]
          exact hus
    · rw [if_neg hc] at he'
      rcases List.mem_append.mp he' with he | he
      · obtain ⟨hw, hcnt, hus⟩ := hent e' he
        have hne : s.channelId ≠ e'.channelId := fun hh =>
          hc (hh ▸ List.mem_map.mpr ⟨e', he, rfl⟩)
        refine ⟨?_, ?_, ?_⟩
        · rw [hmapsnd, channelDuration_append, channelDuration_singleton,
            if_neg hne, Nat.add_zero]
          exact hw
        · rw [hmapsnd, channelCount_append, channelCount_singleton,
            if_neg hne, Nat.add_zero]
          exact hcnt
        · rw [filter_pair_append, if_neg hne, List.append_nil]
          exact hus
      · rw [List.mem_singleton] at he
        subst he
        have hnotdone : s.channelId ∉ (done.map Prod.snd).map (fun t => t.channelId) := by
          intro hh
          rw [List.map_map] at hh
          exact hc (hkeys ▸ mem_firstDedup.mpr hh)
        have hnotpairs : s.channelId ∉ done.map (fun q => q.2.channelId) := by
          intro hh
          exact hc (hkeys ▸ mem_firstDedup.mpr hh)
        refine ⟨?_, ?_, ?_⟩
        · dsimp only
          rw [hmapsnd, channelDuration_append, channelDuration_singleton,
            if_pos rfl, channelDuration_eq_zero _ _ hnotdone, Nat.zero_add]
        · dsimp only
          rw [hmapsnd, channelCount_append, channelCount_singleton,
            if_pos rfl, channelCount_eq_zero _ _ hnotdone, Nat.zero_add]
        · dsimp only
          rw [filter_pair_append, if_pos rfl,
            filter_pair_eq_nil done _ hnotpairs, List.nil_append]
          rfl

theorem globalAccOk_foldl :
    ∀ (scanned done : List (String × LiveWatchSession))
      (m : List GlobalChannelAcc),
      GlobalAccOk done m →
      GlobalAccOk (done ++ scanned)
        (scanned.foldl (fun g p => updateGlobalChannel g p.1 p.2) m)
  | [], done, m, h => by simpa using h
  | p :: rest, done, m, h => by
    have h2 := globalAccOk_foldl rest (done ++ [(p.1, p.2)])
      (updateGlobalChannel m p.1 p.2) (globalAccOk_step done m p.1 p.2 h)
    simpa [List.append_assoc] using h2

theorem globalAccOk_accumGlobal (scanned : List (String × LiveWatchSession)) :
    GlobalAccOk scanned (accumGlobal scanned) := by
  have h := globalAccOk_foldl scanned [] [] ⟨rfl, by simp⟩
  simpa [accumGlobal] using h

theorem sessionFold_fst (u : String) :
    ∀ (sessions : List LiveWatchSession) (m : List FavoriteChannel)
      (g : List GlobalChannelAcc),
      (sessions.foldl (sessionStep u) (m, g)).1 =
        sessions.foldl updateChannelWatch m
  | [], _, _ => rfl
  | s :: rest, m, g => by
    simp only [List.foldl_cons, sessionStep]
    exact sessionFold_fst u rest _ _

theorem sessionFold_snd (u : String) :
    ∀ (sessions : List LiveWatchSession) (m : List FavoriteChannel)
      (g : List GlobalChannelAcc),
      (sessions.foldl (sessionStep u) (m, g)).2 =
        sessions.foldl (fun gm s => updateGlobalChannel gm u s) g
  | [], _, _ => rfl
  | s :: rest, m, g => by
    simp only [List.foldl_cons, sessionStep]
    exact sessionFold_snd u rest _ _

theorem userStats_entry_ok (store : Store) :
    ∀ (users : List String) (acc : ScanAcc),
      (∀ e ∈ acc.userStats, UserStatEntryOk store e) →
      ∀ e ∈ (users.foldl (processUser store) acc).userStats,
        UserStatEntryOk store e
  | [], acc, h => h
  | u :: rest, acc, h => by
    rw [List.foldl_cons]
    apply userStats_entry_ok store rest
    simp only [processUser]
    split_ifs with hskip
    · exact h
    · intro e he
      rcases List.mem_append.mp he with he | he
      · exact h e he
      · rw [List.mem_singleton] at he
        subst he
        refine ⟨?_, rfl, rfl, rfl, rfl⟩
        show (sortByDesc (fun e => e.watchTime)
            (List.foldl (sessionStep u) ([], acc.channelMap)
              ((store.sessions u).getD [])).1).take 5 = _
        rw [sessionFold_fst]
        rfl

theorem mem_userStats_foldl (store : Store) :
    ∀ (users : List String) (acc : ScanAcc) (e : UserLiveStats),
      e ∈ acc.userStats →
      e ∈ (users.foldl (processUser store) acc).userStats
  | [], _, _, he => he
  | u :: rest, acc, e, he => by
    rw [List.foldl_cons]
    apply mem_userStats_foldl store rest
    simp only [processUser]
    split_ifs with hskip
    · exact he
    · exact List.mem_append_left _ he

theorem exists_entry_of_mem (store : Store) :
    ∀ (users : List String) (acc : ScanAcc) (u : String), u ∈ users →
      ¬((store.stats u).isNone ∧ (store.sessions u).getD [] = []) →
      ∃ e, e ∈ (users.foldl (processUser store) acc).userStats ∧
        e.username = u
  | [], _, _, hu, _ => absurd hu (List.not_mem_nil _)
  | v :: rest, acc, u, hu, hns => by
    rw [List.foldl_cons]
    rcases List.mem_cons.mp hu with hu | hu
    · subst hu
      refine ⟨{ username := u
                totalWatchTime := ((store.stats u).getD defaultUserStats).totalWatchTime
                totalSessions := ((store.stats u).getD defaultUserStats).totalSessions
                lastWatchTime := ((store.stats u).getD defaultUserStats).lastWatchTime
                favoriteChannels := (sortByDesc (fun e => e.watchTime)
                  (List.foldl (sessionStep u) ([], acc.channelMap)
                    ((store.sessions u).getD [])).1).take 5
                recentSessions := ((store.sessions u).getD []).take 10 },
        ?_, rfl⟩
      apply mem_userStats_foldl store rest
      simp only [processUser]
      rw [if_neg hns]
      exact List.mem_append_right _ (List.mem_singleton.mpr rfl)
    · exact exists_entry_of_mem store rest (processUser store acc v) u hu hns

theorem scan_total_eq_sum (store : Store) :
    ∀ (users : List String) (acc : ScanAcc),
      acc.totalWatchTime = (acc.userStats.map (fun e => e.totalWatchTime)).sum →
      (users.foldl (processUser store) acc).totalWatchTime =
        (((users.foldl (processUser store) acc).userStats).map
          (fun e => e.totalWatchTime)).sum
  | [], _, h => h
  | u :: rest, acc, h => by
    rw [List.foldl_cons]
    apply scan_total_eq_sum store rest
    simp only [processUser]
    split_ifs with hskip
    · exact h
    · simp [h]

theorem scan_channelMap (store : Store) :
    ∀ (users : List String) (acc : ScanAcc),
      (users.foldl (processUser store) acc).channelMap =
        (scannedSessions users store).foldl
          (fun m p => updateGlobalChannel m p.1 p.2) acc.channelMap
  | [], _ => rfl
  | u :: rest, acc => by
    rw [List.foldl_cons]
    have hscn : scannedSessions (u :: rest) store =
        ((store.sessions u).getD []).map (fun s => (u, s)) ++
          scannedSessions rest store := by
      simp [scannedSessions]
    rw [hscn, List.foldl_append, scan_channelMap store rest]
    congr 1
    simp only [processUser]
    split_ifs with hskip
    · rw [hskip.2]
      rfl
    · show (List.foldl (sessionStep u) ([], acc.channelMap)
        ((store.sessions u).getD [])).2 = _
      rw [sessionFold_snd]
      rw [List.foldl_map]

theorem favListCorrect_of (sessions : List LiveWatchSession) :
    FavListCorrect sessions (favoriteChannelsOf sessions) := by
  obtain ⟨hkeys, hent⟩ := favAccOk_accumFav sessions
  have hlen : (accumFav sessions).length =
      (firstDedup (sessions.map (fun s => s.channelId))).length := by
    rw [← hkeys, List.length_map]
  refine ⟨rfl, ?_, ?_, ?_, hkeys, ?_⟩
  · rw [favoriteChannelsOf, List.length_take, length_sortByDesc, hlen]
  · exact (sortByDesc_sorted (fun e => e.watchTime) (accumFav sessions)).sublist
      (List.take_sublist 5 _)
  · intro e he
    have he2 : e ∈ accumFav sessions :=
      (mem_sortByDesc _).mp (List.mem_of_mem_take he)
    exact hent e he2
  · intro v
    exact filter_sortByDesc_key (fun e => e.watchTime) v (accumFav sessions)

theorem hotListCorrect_of (scanned : List (String × LiveWatchSession)) :
    HotListCorrect scanned
      ((sortByDesc (fun c => c.totalWatchTime)
        ((accumGlobal scanned).map toHotChannel)).take 10) := by
  obtain ⟨hkeys, hent⟩ := globalAccOk_accumGlobal scanned
  have hlen : (accumGlobal scanned).length =
      (firstDedup (scanned.map (fun p => p.2.channelId))).length := by
    rw [← hkeys, List.length_map]
  refine ⟨rfl, ?_, ?_, ?_, ?_⟩
  · rw [List.length_take, length_sortByDesc, List.length_map, hlen]
  · exact (sortByDesc_sorted (fun c => c.totalWatchTime)
      ((accumGlobal scanned).map toHotChannel)).sublist
      (List.take_sublist 10 _)
  · intro e he
    have he2 : e ∈ (accumGlobal scanned).map toHotChannel :=
      (mem_sortByDesc _).mp (List.mem_of_mem_take he)
    obtain ⟨c, hc, hceq⟩ := List.mem_map.mp he2
    obtain ⟨hw, hcnt, hus⟩ := hent c hc
    subst hceq
    exact ⟨hw, hcnt, by rw [toHotChannel, ← hus]⟩
  · intro v
    exact filter_sortByDesc_key (fun c => c.totalWatchTime) v
      ((accumGlobal scanned).map toHotChannel)

theorem buildReport_userStats (users : List String) (store : Store)
    (nowMs : Nat) :
    (buildReport users store nowMs).userStats =
      sortByDesc (fun e => e.totalWatchTime)
        ((users.foldl (processUser store) emptyScanAcc).userStats) := rfl

theorem buildReport_hotChannels (users : List String) (store : Store)
    (nowMs : Nat) :
    (buildReport users store nowMs).hotChannels =
      (sortByDesc (fun c => c.totalWatchTime)
        (((users.foldl (processUser store) emptyScanAcc).channelMap).map
          toHotChannel)).take 10 := rfl

theorem buildReport_totalWatchTime (users : List String) (store : Store)
    (nowMs : Nat) :
    (buildReport users store nowMs).totalWatchTime =
      (users.foldl (processUser store) emptyScanAcc).totalWatchTime := rfl

theorem buildReport_dailyTrend (users : List String) (store : Store)
    (nowMs : Nat) :
    (buildReport users store nowMs).dailyTrend = dailyTrendOf store nowMs := rfl

theorem sumDurations_cons (x : LiveWatchSession) (l : List LiveWatchSession) :
    sumDurations (x :: l) = x.duration + sumDurations l := by
  simp [sumDurations]

theorem sessionsStatsInv_settle (username : String) (state : LiveWatchState)
    (endTime today : Nat) (store : Store) (h : SessionsStatsInv store) :
    SessionsStatsInv (settleWatchSession username state endTime today store) := by
  rcases Nat.lt_or_ge (state.heartbeatCount * HEARTBEAT_INTERVAL)
    MIN_SESSION_DURATION with hlo | hlo
  · rw [settle_skip _ _ _ _ _ (Or.inl hlo)]
    exact h
  rcases Nat.lt_or_ge MAX_SESSION_DURATION
    (state.heartbeatCount * HEARTBEAT_INTERVAL) with hhi | hhi
  · rw [settle_skip _ _ _ _ _ (Or.inr hhi)]
    exact h
  intro u
  by_cases hu : u = username
  · subst hu
    obtain ⟨hlen, hle, heq⟩ := h u
    rw [settle_sessions_self _ _ _ _ _ hlo hhi,
      settle_stats_self _ _ _ _ _ hlo hhi]
    simp only [Option.getD_some]
    have hmkdur : (mkWatchSession state endTime).duration =
        state.heartbeatCount * HEARTBEAT_INTERVAL := rfl
    have hbumpS : (bumpUserStats ((store.stats u).getD defaultUserStats)
        (state.heartbeatCount * HEARTBEAT_INTERVAL) endTime).totalSessions =
        ((store.stats u).getD defaultUserStats).totalSessions + 1 := rfl
    have hbumpW : (bumpUserStats ((store.stats u).getD defaultUserStats)
        (state.heartbeatCount * HEARTBEAT_INTERVAL) endTime).totalWatchTime =
        ((store.stats u).getD defaultUserStats).totalWatchTime +
          state.heartbeatCount * HEARTBEAT_INTERVAL := rfl
    refine ⟨?_, ?_, ?_⟩
    · rw [truncate100_length, hbumpS, List.length_cons]
      omega
    · calc sumDurations (truncate100 (mkWatchSession state endTime ::
            (store.sessions u).getD [])) ≤
          sumDurations (mkWatchSession state endTime ::
            (store.sessions u).getD []) := sumDurations_truncate100_le _
        _ = state.heartbeatCount * HEARTBEAT_INTERVAL +
            sumDurations ((store.sessions u).getD []) := by
          rw [sumDurations_cons, hmkdur]
        _ ≤ (bumpUserStats ((store.stats u).getD defaultUserStats)
            (state.heartbeatCount * HEARTBEAT_INTERVAL) endTime).totalWatchTime := by
          rw [hbumpW]; omega
    · intro hcap
      rw [hbumpS] at hcap
      have hlen2 : (mkWatchSession state endTime ::
          (store.sessions u).getD []).length ≤ 100 := by
        rw [List.length_cons]
        omega
      rw [truncate100_of_le hlen2, sumDurations_cons, hmkdur, hbumpW,
        heq (by omega)]
      omega
  · rw [settle_sessions_other _ _ _ _ _ hu, settle_stats_other _ _ _ _ _ hu]
    exact h u

theorem sessionsStatsInv_settleSeq :
    ∀ (calls : List SettleCall) (store : Store), SessionsStatsInv store →
      SessionsStatsInv (settleSeq calls store)
  | [], _, h => h
  | c :: rest, store, h =>
    sessionsStatsInv_settleSeq rest _
      (sessionsStatsInv_settle c.username c.state c.endTime c.today store h)

theorem sessionsStatsInv_empty : SessionsStatsInv emptyStore := by
  intro u
  refine ⟨?_, ?_, fun _ => ?_⟩ <;>
    simp [emptyStore, defaultUserStats, sumDurations]

theorem setWatching_self (store : Store) (u s : String) (st : LiveWatchState) :
    (store.setWatching u s st).watching u s = some st := by
  simp [Store.setWatching]

theorem setWatching_sessions (store : Store) (u s : String)
    (st : LiveWatchState) :
    (store.setWatching u s st).sessions = store.sessions := rfl

theorem setWatching_stats (store : Store) (u s : String)
    (st : LiveWatchState) :
    (store.setWatching u s st).stats = store.stats := rfl

theorem delWatching_self (store : Store) (u s : String) :
    (store.delWatching u s).watching u s = none := by
  simp [Store.delWatching]

theorem heartbeatPost_none (username : String) (body : LiveHeartbeatRequest)
    (now today : Nat) (store : Store)
    (hvalid : ¬(body.sessionId = "" ∨ body.channelId = "" ∨
      body.channelName = "" ∨ body.sourceKey = ""))
    (hst : store.watching username body.sessionId = none) :
    heartbeatPost username body now today store =
      store.setWatching username body.sessionId (mkNewWatchState body now) := by
  unfold heartbeatPost
  rw [if_neg hvalid, hst]

theorem heartbeatPost_same (username : String) (body : LiveHeartbeatRequest)
    (now today : Nat) (store : Store) (lastState : LiveWatchState)
    (hvalid : ¬(body.sessionId = "" ∨ body.channelId = "" ∨
      body.channelName = "" ∨ body.sourceKey = ""))
    (hst : store.watching username body.sessionId = some lastState)
    (hch : lastState.channelId = body.channelId) :
    heartbeatPost username body now today store =
      store.setWatching username body.sessionId
        { lastState with
          lastHeartbeat := now
          heartbeatCount := lastState.heartbeatCount + 1 } := by
  unfold heartbeatPost
  rw [if_neg hvalid]
  simp only [hst]
  rw [if_neg (show ¬(lastState.channelId ≠ body.channelId) from
    fun hne => hne hch)]

theorem heartbeatPost_switch (username : String) (body : LiveHeartbeatRequest)
    (now today : Nat) (store : Store) (lastState : LiveWatchState)
    (hvalid : ¬(body.sessionId = "" ∨ body.channelId = "" ∨
      body.channelName = "" ∨ body.sourceKey = ""))
    (hst : store.watching username body.sessionId = some lastState)
    (hch : lastState.channelId ≠ body.channelId) :
    heartbeatPost username body now today store =
      (settleWatchSession username lastState now today store).setWatching
        username body.sessionId (mkNewWatchState body now) := by
  unfold heartbeatPost
  rw [if_neg hvalid]
  simp only [hst]
  rw [if_pos hch]

theorem heartbeatSeq_cons (username : String) (body : LiveHeartbeatRequest)
    (t : Nat × Nat) (times : List (Nat × Nat)) (store : Store) :
    heartbeatSeq username body (t :: times) store =
      heartbeatSeq username body times
        (heartbeatPost username body t.1 t.2 store) := rfl

theorem heartbeatSeq_same_channel (username : String)
    (body : LiveHeartbeatRequest)
    (hvalid : ¬(body.sessionId = "" ∨ body.channelId = "" ∨
      body.channelName = "" ∨ body.sourceKey = "")) :
    ∀ (times : List (Nat × Nat)) (store : Store) (st : LiveWatchState),
      store.watching username body.sessionId = some st →
      st.channelId = body.channelId →
      ∃ st', (heartbeatSeq username body times store).watching username
          body.sessionId = some st' ∧
        st'.heartbeatCount = st.heartbeatCount + times.length ∧
        st'.channelId = body.channelId ∧
        st'.startTime = st.startTime ∧
        (heartbeatSeq username body times store).sessions = store.sessions ∧
        (heartbeatSeq username body times store).stats = store.stats
  | [], store, st, hst, hch => ⟨st, hst, by simp, hch, rfl, rfl, rfl⟩
  | t :: rest, store, st, hst, hch => by
    have hstep := heartbeatPost_same username body t.1 t.2 store st hvalid hst hch
    have hnext : (heartbeatPost username body t.1 t.2 store).watching username
        body.sessionId = some { st with
          lastHeartbeat := t.1
          heartbeatCount := st.heartbeatCount + 1 } := by
      rw [hstep]
      exact setWatching_self _ _ _ _
    obtain ⟨st', h1, h2, h3, h4, h5, h6⟩ :=
      heartbeatSeq_same_channel username body hvalid rest
        (heartbeatPost username body t.1 t.2 store) _ hnext hch
    rw [heartbeatSeq_cons]
    refine ⟨st', h1, ?_, h3, ?_, ?_, ?_⟩
    · rw [h2]
      simp only [List.length_cons]
      omega
    · exact h4
    · rw [h5, hstep, setWatching_sessions]
    · rw [h6, hstep, setWatching_stats]

theorem endWatchPost_noop (username sessionId : String) (now today : Nat)
    (store : Store) (h : store.watching username sessionId = none) :
    endWatchPost username sessionId now today store = store := by
  unfold endWatchPost
  by_cases hsid : sessionId = ""
  · rw [if_pos hsid]
  · rw [if_neg hsid]
    simp only [h]

theorem endWatchPost_settles (username sessionId : String) (now today : Nat)
    (store : Store) (state : LiveWatchState) (hsid : sessionId ≠ "")
    (h : store.watching username sessionId = some state) :
    endWatchPost username sessionId now today store =
      (settleWatchSession username state now today store).delWatching
        username sessionId := by
  unfold endWatchPost
  rw [if_neg hsid]
  simp only [h]

/-- C1: when a heartbeat carries a channel different from the live
WatchState's, the old state is settled exactly once with `endTime = now`
(one WatchSession for the old channel with
`duration = heartbeatCount * HEARTBEAT_INTERVAL` is prepended to the session
list and `totalSessions` grows by exactly one, provided the duration is
within bounds), and a brand-new WatchState for the new channel is stored
with `heartbeatCount = 1` and `startTime = lastHeartbeat = now`. -/
theorem claim1_channel_switch (username : String) (body : LiveHeartbeatRequest)
    (now today : Nat) (store : Store) (lastState : LiveWatchState)
    (hvalid : ¬(body.sessionId = "" ∨ body.channelId = "" ∨
      body.channelName = "" ∨ body.sourceKey = ""))
    (hstate : store.watching username body.sessionId = some lastState)
    (hdiff : lastState.channelId ≠ body.channelId)
    (hlo : MIN_SESSION_DURATION ≤ lastState.heartbeatCount * HEARTBEAT_INTERVAL)
    (hhi : lastState.heartbeatCount * HEARTBEAT_INTERVAL ≤ MAX_SESSION_DURATION) :
    (heartbeatPost username body now today store).watching username
        body.sessionId = some (mkNewWatchState body now) ∧
    (mkNewWatchState body now).heartbeatCount = 1 ∧
    (mkNewWatchState body now).startTime = now ∧
    (mkNewWatchState body now).lastHeartbeat = now ∧
    (mkNewWatchState body now).channelId = body.channelId ∧
    ((heartbeatPost username body now today store).sessions username).getD [] =
      truncate100 (mkWatchSession lastState now ::
        (store.sessions username).getD []) ∧
    (mkWatchSession lastState now).channelId = lastState.channelId ∧
    (mkWatchSession lastState now).duration =
      lastState.heartbeatCount * HEARTBEAT_INTERVAL ∧
    (mkWatchSession lastState now).endTime = now ∧
    ((heartbeatPost username body now today store).stats username).getD
        defaultUserStats =
      bumpUserStats ((store.stats username).getD defaultUserStats)
        (lastState.heartbeatCount * HEARTBEAT_INTERVAL) now := by
  have hsw := heartbeatPost_switch username body now today store lastState
    hvalid hstate hdiff
  refine ⟨?_, rfl, rfl, rfl, rfl, ?_, rfl, rfl, rfl, ?_⟩
  · rw [hsw]
    exact setWatching_self _ _ _ _
  · rw [hsw, setWatching_sessions,
      settle_sessions_self _ _ _ _ _ hlo hhi, Option.getD_some]
  · rw [hsw, setWatching_stats,
      settle_stats_self _ _ _ _ _ hlo hhi, Option.getD_some]

theorem claim1_witness :
    (heartbeatPost "alice" bodyB 120 0 store1).watching "alice"
        bodyB.sessionId = some (mkNewWatchState bodyB 120) ∧
    (mkNewWatchState bodyB 120).heartbeatCount = 1 ∧
    (mkNewWatchState bodyB 120).startTime = 120 ∧
    (mkNewWatchState bodyB 120).lastHeartbeat = 120 ∧
    (mkNewWatchState bodyB 120).channelId = bodyB.channelId ∧
    ((heartbeatPost "alice" bodyB 120 0 store1).sessions "alice").getD [] =
      truncate100 (mkWatchSession stA 120 ::
        (store1.sessions "alice").getD []) ∧
    (mkWatchSession stA 120).channelId = stA.channelId ∧
    (mkWatchSession stA 120).duration = stA.heartbeatCount * HEARTBEAT_INTERVAL ∧
    (mkWatchSession stA 120).endTime = 120 ∧
    ((heartbeatPost "alice" bodyB 120 0 store1).stats "alice").getD
        defaultUserStats =
      bumpUserStats ((store1.stats "alice").getD defaultUserStats)
        (stA.heartbeatCount * HEARTBEAT_INTERVAL) 120 :=
  claim1_channel_switch "alice" bodyB 120 0 store1 stA (by decide) (by decide)
    (by decide) (by decide) (by decide)

/-- C2: every settlement that persists writes a session whose duration equals
`heartbeatCount * HEARTBEAT_INTERVAL`, a multiple of the heartbeat interval
inside `[MIN_SESSION_DURATION, MAX_SESSION_DURATION]` with both bounds
included, and a settlement whose duration falls outside that range returns
with the store completely untouched (no session, no aggregate, no error). -/
theorem claim2_settlement_bounds (username : String) (state : LiveWatchState)
    (endTime today : Nat) (store : Store) :
    ((state.heartbeatCount * HEARTBEAT_INTERVAL < MIN_SESSION_DURATION ∨
        MAX_SESSION_DURATION < state.heartbeatCount * HEARTBEAT_INTERVAL) →
      settleWatchSession username state endTime today store = store) ∧
    (MIN_SESSION_DURATION ≤ state.heartbeatCount * HEARTBEAT_INTERVAL →
      state.heartbeatCount * HEARTBEAT_INTERVAL ≤ MAX_SESSION_DURATION →
      ((settleWatchSession username state endTime today store).sessions
          username).getD [] =
        truncate100 (mkWatchSession state endTime ::
          (store.sessions username).getD []) ∧
      (mkWatchSession state endTime).duration =
        state.heartbeatCount * HEARTBEAT_INTERVAL ∧
      (mkWatchSession state endTime).duration % HEARTBEAT_INTERVAL = 0 ∧
      MIN_SESSION_DURATION ≤ (mkWatchSession state endTime).duration ∧
      (mkWatchSession state endTime).duration ≤ MAX_SESSION_DURATION) := by
  refine ⟨settle_skip username state endTime today store, ?_⟩
  intro h1 h2
  refine ⟨?_, rfl, Nat.mul_mod_left _ _, h1, h2⟩
  rw [settle_sessions_self _ _ _ _ _ h1 h2, Option.getD_some]

theorem claim2_witness :
    ((settleWatchSession "alice" stHB1 100 0 emptyStore).sessions
        "alice").getD [] =
      truncate100 (mkWatchSession stHB1 100 ::
        (emptyStore.sessions "alice").getD []) ∧
    (mkWatchSession stHB1 100).duration =
      stHB1.heartbeatCount * HEARTBEAT_INTERVAL ∧
    (mkWatchSession stHB1 100).duration % HEARTBEAT_INTERVAL = 0 ∧
    MIN_SESSION_DURATION ≤ (mkWatchSession stHB1 100).duration ∧
    (mkWatchSession stHB1 100).duration ≤ MAX_SESSION_DURATION :=
  (claim2_settlement_bounds "alice" stHB1 100 0 emptyStore).2
    (by decide) (by decide)

/-- C5: an `end_watch` call that finds a WatchState settles it once with
`endTime = now` and deletes the stored state without creating a replacement;
an `end_watch` call that finds none leaves the store untouched and raises no
error, so a second `end_watch` on the same key is a no-op. -/
theorem claim5_end_watch (username sessionId : String) (now today : Nat)
    (store : Store) :
    (store.watching username sessionId = none →
      endWatchPost username sessionId now today store = store) ∧
    (∀ state, store.watching username sessionId = some state →
      sessionId ≠ "" →
      endWatchPost username sessionId now today store =
        (settleWatchSession username state now today store).delWatching
          username sessionId ∧
      (endWatchPost username sessionId now today store).watching username
        sessionId = none ∧
      (∀ now2 today2,
        endWatchPost username sessionId now2 today2
            (endWatchPost username sessionId now today store) =
          endWatchPost username sessionId now today store)) := by
  refine ⟨endWatchPost_noop username sessionId now today store, ?_⟩
  intro state hsome hsid
  have hset := endWatchPost_settles username sessionId now today store state
    hsid hsome
  have hnone : (endWatchPost username sessionId now today store).watching
      username sessionId = none := by
    rw [hset]
    exact delWatching_self _ _ _
  exact ⟨hset, hnone,
    fun now2 today2 => endWatchPost_noop username sessionId now2 today2 _ hnone⟩

theorem claim5_witness :
    endWatchPost "alice" "tab1" 5 0 emptyStore = emptyStore ∧
    (endWatchPost "alice" "tab1" 200 0 store1).watching "alice" "tab1" =
      none ∧
    endWatchPost "alice" "tab1" 300 1
        (endWatchPost "alice" "tab1" 200 0 store1) =
      endWatchPost "alice" "tab1" 200 0 store1 := by
  refine ⟨(claim5_end_watch "alice" "tab1" 5 0 emptyStore).1 rfl, ?_, ?_⟩
  · exact ((claim5_end_watch "alice" "tab1" 200 0 store1).2 stA (by decide)
      (by decide)).2.1
  · exact ((claim5_end_watch "alice" "tab1" 200 0 store1).2 stA (by decide)
      (by decide)).2.2 300 1

/-- C6: a persisting settlement prepends the new WatchSession to the front of
the user's list, the stored list never exceeds 100 entries, and a prepend
onto a list already holding 100 entries keeps the length at 100 while the
oldest (last) entry is evicted. -/
theorem claim6_capacity (username : String) (state : LiveWatchState)
    (endTime today : Nat) (store : Store)
    (hlo : MIN_SESSION_DURATION ≤ state.heartbeatCount * HEARTBEAT_INTERVAL)
    (hhi : state.heartbeatCount * HEARTBEAT_INTERVAL ≤ MAX_SESSION_DURATION) :
    ((settleWatchSession username state endTime today store).sessions
        username).getD [] =
      truncate100 (mkWatchSession state endTime ::
        (store.sessions username).getD []) ∧
    (((settleWatchSession username state endTime today store).sessions
        username).getD []).head? = some (mkWatchSession state endTime) ∧
    (((settleWatchSession username state endTime today store).sessions
        username).getD []).length ≤ 100 ∧
    (((store.sessions username).getD []).length = 100 →
      ((settleWatchSession username state endTime today store).sessions
          username).getD [] =
        mkWatchSession state endTime ::
          ((store.sessions username).getD []).dropLast ∧
      (((settleWatchSession username state endTime today store).sessions
          username).getD []).length = 100) := by
  rw [settle_sessions_self _ _ _ _ _ hlo hhi, Option.getD_some]
  refine ⟨rfl, truncate100_head _ _, ?_, ?_⟩
  · rw [truncate100_length, List.length_cons]
    omega
  · intro hcap
    have h101 : 100 < (mkWatchSession state endTime ::
        (store.sessions username).getD []).length := by
      rw [List.length_cons, hcap]
      omega
    constructor
    · rw [truncate100, if_pos h101,
        show (100 : Nat) = 99 + 1 from rfl, List.take_succ_cons,
        List.dropLast_eq_take, hcap]
    · rw [truncate100_length, List.length_cons, hcap]
      omega

theorem claim6_witness :
    (((settleWatchSession "alice" stHB1 100 0 c6store).sessions
        "alice").getD []).head? = some (mkWatchSession stHB1 100) ∧
    ((settleWatchSession "alice" stHB1 100 0 c6store).sessions
        "alice").getD [] =
      mkWatchSession stHB1 100 :: ((c6store.sessions "alice").getD []).dropLast ∧
    (((settleWatchSession "alice" stHB1 100 0 c6store).sessions
        "alice").getD []).length = 100 := by
  have h := claim6_capacity "alice" stHB1 100 0 c6store (by decide) (by decide)
  exact ⟨h.2.1, (h.2.2.2 (by decide)).1, (h.2.2.2 (by decide)).2⟩

set_option maxRecDepth 10000 in
/-- C3 counterexample: after 101 persisted settlements for one user the
stored session list has been truncated to the 100 most recent entries, so the
sum of its durations (3000) no longer equals `totalWatchTime` (3030). -/
theorem claim3_counterexample :
    ¬ (sumDurations (((settleSeq (List.replicate 101 c3call)
          emptyStore).sessions "alice").getD []) =
       (((settleSeq (List.replicate 101 c3call) emptyStore).stats
          "alice").getD defaultUserStats).totalWatchTime) := by
  decide

/-- C3 amended: for every sequence of settlements from an empty store, the
sum of the durations in the user's stored session list equals
`UserStats.totalWatchTime` as long as the user's `totalSessions` is at most
100, i.e. as long as the 100-entry cap has not evicted anything (and without
that restriction the sum is still bounded by `totalWatchTime`, as the
invariant `SessionsStatsInv` used by this proof records). -/
theorem claim3_sum_eq_total (calls : List SettleCall) (u : String)
    (h : (((settleSeq calls emptyStore).stats u).getD
      defaultUserStats).totalSessions ≤ 100) :
    sumDurations (((settleSeq calls emptyStore).sessions u).getD []) =
      (((settleSeq calls emptyStore).stats u).getD
        defaultUserStats).totalWatchTime :=
  ((sessionsStatsInv_settleSeq calls emptyStore sessionsStatsInv_empty) u).2.2 h

theorem claim3_witness :
    sumDurations (((settleSeq [c3call] emptyStore).sessions "alice").getD []) =
      (((settleSeq [c3call] emptyStore).stats "alice").getD
        defaultUserStats).totalWatchTime :=
  claim3_sum_eq_total [c3call] "alice" (by decide)

/-- C4 counterexample: a settlement whose `endTime` falls on day 0 but which
executes while the wall clock reads day 1 updates `live:daily:` at day 1 and
leaves the `endTime`-derived day key untouched: the daily key is not derived
from the settlement's `endTime` parameter. -/
theorem claim4_counterexample :
    (settleWatchSession "alice" cex4State 0 1 emptyStore).daily
      (0 / MS_PER_DAY) = none ∧
    ¬ ((settleWatchSession "alice" cex4State 0 1 emptyStore).daily 1 =
      none) := by
  decide

/-- C4 amended: all four aggregate updates of a persisting settlement use the
same `duration = heartbeatCount * HEARTBEAT_INTERVAL` value, and the
daily-aggregate key is the calendar day read from the wall clock at
settlement time (`today`), which coincides with the `endTime`-derived day key
whenever the settlement executes on the same calendar day as `endTime`. -/
theorem claim4_same_duration (username : String) (state : LiveWatchState)
    (endTime today : Nat) (store : Store)
    (hlo : MIN_SESSION_DURATION ≤ state.heartbeatCount * HEARTBEAT_INTERVAL)
    (hhi : state.heartbeatCount * HEARTBEAT_INTERVAL ≤ MAX_SESSION_DURATION) :
    ((settleWatchSession username state endTime today store).sessions
        username).getD [] =
      truncate100 (mkWatchSession state endTime ::
        (store.sessions username).getD []) ∧
    (mkWatchSession state endTime).duration =
      state.heartbeatCount * HEARTBEAT_INTERVAL ∧
    (settleWatchSession username state endTime today store).stats username =
      some (bumpUserStats ((store.stats username).getD defaultUserStats)
        (state.heartbeatCount * HEARTBEAT_INTERVAL) endTime) ∧
    (settleWatchSession username state endTime today store).daily today =
      some (bumpDailyStats ((store.daily today).getD defaultDailyStats)
        username (state.heartbeatCount * HEARTBEAT_INTERVAL)) ∧
    (settleWatchSession username state endTime today store).channel
        state.channelId =
      some (bumpChannelStats
        ((store.channel state.channelId).getD (initChannelStats state))
        username (state.heartbeatCount * HEARTBEAT_INTERVAL)) ∧
    (∀ d, d ≠ today →
      (settleWatchSession username state endTime today store).daily d =
        store.daily d) ∧
    (today = endTime / MS_PER_DAY →
      (settleWatchSession username state endTime today store).daily
          (endTime / MS_PER_DAY) =
        some (bumpDailyStats
          ((store.daily (endTime / MS_PER_DAY)).getD defaultDailyStats)
          username (state.heartbeatCount * HEARTBEAT_INTERVAL))) := by
  refine ⟨?_, rfl, settle_stats_self _ _ _ _ _ hlo hhi,
    settle_daily_self _ _ _ _ _ hlo hhi,
    settle_channel_self _ _ _ _ _ hlo hhi,
    fun d hd => settle_daily_other _ _ _ _ _ hd, ?_⟩
  · rw [settle_sessions_self _ _ _ _ _ hlo hhi, Option.getD_some]
  · intro heq
    rw [← heq]
    exact settle_daily_self _ _ _ _ _ hlo hhi

theorem claim4_witness :
    (settleWatchSession "alice" cex4State 100 0 emptyStore).daily 0 =
      some (bumpDailyStats ((emptyStore.daily 0).getD defaultDailyStats)
        "alice" (cex4State.heartbeatCount * HEARTBEAT_INTERVAL)) ∧
    (settleWatchSession "alice" cex4State 100 0 emptyStore).daily
        (100 / MS_PER_DAY) =
      some (bumpDailyStats
        ((emptyStore.daily (100 / MS_PER_DAY)).getD defaultDailyStats)
        "alice" (cex4State.heartbeatCount * HEARTBEAT_INTERVAL)) := by
  have h := claim4_same_duration "alice" cex4State 100 0 emptyStore
    (by decide) (by decide)
  exact ⟨h.2.2.2.1, h.2.2.2.2.2.2 (by decide)⟩

/-- C7: a sequence of N ≥ 1 same-channel heartbeats on one
(user, sessionTag) key starting with no live state leaves exactly one live
WatchState at that key (the store is keyed on the pair, so at most one state
can ever exist per key), with `heartbeatCount = N`, and triggers no
settlement: session lists and user stats are untouched. -/
theorem claim7_heartbeat_count (username : String)
    (body : LiveHeartbeatRequest) (times : List (Nat × Nat)) (store : Store)
    (hvalid : ¬(body.sessionId = "" ∨ body.channelId = "" ∨
      body.channelName = "" ∨ body.sourceKey = ""))
    (hnone : store.watching username body.sessionId = none)
    (hne : times ≠ []) :
    ∃ st', (heartbeatSeq username body times store).watching username
        body.sessionId = some st' ∧
      st'.heartbeatCount = times.length ∧
      st'.channelId = body.channelId ∧
      (heartbeatSeq username body times store).sessions = store.sessions ∧
      (heartbeatSeq username body times store).stats = store.stats := by
  cases times with
  | nil => exact absurd rfl hne
  | cons t rest =>
    rw [heartbeatSeq_cons]
    have hstep := heartbeatPost_none username body t.1 t.2 store hvalid hnone
    have hnext : (heartbeatPost username body t.1 t.2 store).watching username
        body.sessionId = some (mkNewWatchState body t.1) := by
      rw [hstep]
      exact setWatching_self _ _ _ _
    obtain ⟨st', h1, h2, h3, _, h5, h6⟩ :=
      heartbeatSeq_same_channel username body hvalid rest
        (heartbeatPost username body t.1 t.2 store) _ hnext rfl
    refine ⟨st', h1, ?_, h3, ?_, ?_⟩
    · rw [h2]
      simp [mkNewWatchState, List.length_cons, Nat.add_comm]
    · rw [h5, hstep, setWatching_sessions]
    · rw [h6, hstep, setWatching_stats]

theorem claim7_witness :
    ∃ st', (heartbeatSeq "alice" bodyA hbTimes emptyStore).watching "alice"
        "tab1" = some st' ∧
      st'.heartbeatCount = 4 ∧ st'.channelId = "c1" := by
  obtain ⟨st', h1, h2, h3, _, _⟩ := claim7_heartbeat_count "alice" bodyA
    hbTimes emptyStore (by decide) rfl (by decide)
  exact ⟨st', h1, by rw [h2]; rfl, by rw [h3]; rfl⟩

/-- C8: every per-user block of the report carries as `favoriteChannels` the
per-channel accumulation of that user's session list (duration sum and count
per channel, in first-occurrence order) sorted descending by watch time with
ties kept in accumulation order (stable sort) and truncated to 5; the
`hotChannels` ranking is built from every scanned session by the same
accumulate / stable-sort / truncate rule, keeping the first 10. -/
theorem claim8_rankings (users : List String) (store : Store) (nowMs : Nat) :
    (∀ us ∈ (buildReport users store nowMs).userStats,
        us.favoriteChannels =
          favoriteChannelsOf ((store.sessions us.username).getD []) ∧
        FavListCorrect ((store.sessions us.username).getD [])
          us.favoriteChannels) ∧
    HotListCorrect (scannedSessions users store)
      (buildReport users store nowMs).hotChannels := by
  constructor
  · intro us hus
    rw [buildReport_userStats] at hus
    have hmem : us ∈ (users.foldl (processUser store) emptyScanAcc).userStats :=
      (mem_sortByDesc _).mp hus
    have hok := userStats_entry_ok store users emptyScanAcc
      (by intro e he; simp [emptyScanAcc] at he) us hmem
    refine ⟨hok.1, ?_⟩
    rw [hok.1]
    exact favListCorrect_of _
  · rw [buildReport_hotChannels, scan_channelMap store users emptyScanAcc]
    exact hotListCorrect_of (scannedSessions users store)

theorem claim8_witness :
    c8entry.favoriteChannels =
      favoriteChannelsOf ((c10store.sessions c8entry.username).getD []) ∧
    FavListCorrect ((c10store.sessions c8entry.username).getD [])
      c8entry.favoriteChannels :=
  (claim8_rankings c10users c10store 0).1 c8entry (by decide)

/-- C9: the report's daily trend has exactly 7 entries, one per calendar day
for the 7 days ending on the current day, ordered oldest to newest, and a day
whose DailyStats record is absent contributes an all-zero entry. -/
theorem claim9_daily_trend (users : List String) (store : Store) (nowMs : Nat)
    (h : 6 * MS_PER_DAY ≤ nowMs) :
    (buildReport users store nowMs).dailyTrend.length = 7 ∧
    (buildReport users store nowMs).dailyTrend =
      (List.range 7).map (fun j =>
        { date := nowMs / MS_PER_DAY - (6 - j)
          watchTime := ((store.daily (nowMs / MS_PER_DAY - (6 - j))).map
            DailyStats.watchTime).getD 0
          sessions := ((store.daily (nowMs / MS_PER_DAY - (6 - j))).map
            DailyStats.sessions).getD 0
          users := ((store.daily (nowMs / MS_PER_DAY - (6 - j))).map
            (fun d => d.users.length)).getD 0 }) ∧
    (buildReport users store nowMs).dailyTrend.Pairwise
      (fun a b => a.date < b.date) ∧
    (∀ e ∈ (buildReport users store nowMs).dailyTrend,
      store.daily e.date = none →
      e.watchTime = 0 ∧ e.sessions = 0 ∧ e.users = 0) := by
  have hday : 6 ≤ nowMs / MS_PER_DAY := by
    rw [Nat.le_div_iff_mul_le (by decide : 0 < MS_PER_DAY)]
    exact h
  have harith : ∀ j : Nat, j < 7 →
      (nowMs - (6 - j) * MS_PER_DAY) / MS_PER_DAY =
        nowMs / MS_PER_DAY - (6 - j) := by
    intro j _
    rw [Nat.mul_comm]
    exact Nat.sub_mul_div nowMs MS_PER_DAY (6 - j)
      (by
        have h6 : MS_PER_DAY * (6 - j) ≤ MS_PER_DAY * 6 :=
          Nat.mul_le_mul_left _ (by omega)
        calc MS_PER_DAY * (6 - j) ≤ MS_PER_DAY * 6 := h6
          _ = 6 * MS_PER_DAY := Nat.mul_comm _ _
          _ ≤ nowMs := h)
  have hmap : (buildReport users store nowMs).dailyTrend =
      (List.range 7).map (fun j =>
        { date := nowMs / MS_PER_DAY - (6 - j)
          watchTime := ((store.daily (nowMs / MS_PER_DAY - (6 - j))).map
            DailyStats.watchTime).getD 0
          sessions := ((store.daily (nowMs / MS_PER_DAY - (6 - j))).map
            DailyStats.sessions).getD 0
          users := ((store.daily (nowMs / MS_PER_DAY - (6 - j))).map
            (fun d => d.users.length)).getD 0 }) := by
    rw [buildReport_dailyTrend, dailyTrendOf]
    apply List.map_congr_left
    intro j hj
    rw [List.mem_range] at hj
    rw [harith j hj]
  refine ⟨?_, hmap, ?_, ?_⟩
  · rw [hmap, List.length_map, List.length_range]
  · rw [hmap]
    rw [List.pairwise_map]
    apply List.Pairwise.imp_of_mem ?_ (List.pairwise_lt_range 7)
    intro a b ha hb hr
    rw [List.mem_range] at ha hb
    show nowMs / MS_PER_DAY - (6 - a) < nowMs / MS_PER_DAY - (6 - b)
    omega
  · intro e he hnone
    rw [hmap] at he
    obtain ⟨j, _, rfl⟩ := List.mem_map.mp he
    dsimp only at hnone ⊢
    rw [hnone]
    exact ⟨rfl, rfl, rfl⟩

theorem claim9_witness :
    (buildReport [] emptyStore (6 * MS_PER_DAY)).dailyTrend.length = 7 ∧
    (buildReport [] emptyStore (6 * MS_PER_DAY)).dailyTrend.Pairwise
      (fun a b => a.date < b.date) := by
  have h := claim9_daily_trend [] emptyStore (6 * MS_PER_DAY) (Nat.le_refl _)
  exact ⟨h.1, h.2.2.1⟩

/-- C10: a user present in the directory whose UserStats record is absent but
whose session list is non-empty still gets a report block, with zero
`totalWatchTime`, `totalSessions` and `lastWatchTime`, while every one of
their sessions is scanned into the channel accumulations; the report's
`totalWatchTime` is the sum of the per-user stats totals, so it can be
strictly smaller than the total duration of the scanned sessions (shown by
the concrete final conjunct). -/
theorem claim10_absent_stats (users : List String) (store : Store)
    (nowMs : Nat) (u : String) (hmem : u ∈ users)
    (hstats : store.stats u = none)
    (hsess : (store.sessions u).getD [] ≠ []) :
    (∃ e, e ∈ (buildReport users store nowMs).userStats ∧ e.username = u ∧
      e.totalWatchTime = 0 ∧ e.totalSessions = 0 ∧ e.lastWatchTime = 0 ∧
      e.favoriteChannels = favoriteChannelsOf ((store.sessions u).getD [])) ∧
    (∀ s ∈ (store.sessions u).getD [], (u, s) ∈ scannedSessions users store) ∧
    ((buildReport users store nowMs).totalWatchTime =
      (((buildReport users store nowMs).userStats).map
        (fun e => e.totalWatchTime)).sum) ∧
    (buildReport c10users c10store 0).totalWatchTime <
      sumDurations ((scannedSessions c10users c10store).map Prod.snd) := by
  refine ⟨?_, ?_, ?_, by decide⟩
  · have hskip : ¬((store.stats u).isNone ∧ (store.sessions u).getD [] = []) :=
      fun hcontra => hsess hcontra.2
    obtain ⟨e, hmem2, huser⟩ :=
      exists_entry_of_mem store users emptyScanAcc u hmem hskip
    have hok := userStats_entry_ok store users emptyScanAcc
      (by intro x hx; simp [emptyScanAcc] at hx) e hmem2
    refine ⟨e, ?_, huser, ?_, ?_, ?_, ?_⟩
    · rw [buildReport_userStats]
      exact (mem_sortByDesc _).mpr hmem2
    · rw [hok.2.1, huser, hstats]
      rfl
    · rw [hok.2.2.1, huser, hstats]
      rfl
    · rw [hok.2.2.2.1, huser, hstats]
      rfl
    · rw [hok.1, huser]
  · intro s hs
    exact List.mem_flatMap.mpr ⟨u, hmem, List.mem_map.mpr ⟨s, hs, rfl⟩⟩
  · rw [buildReport_totalWatchTime, buildReport_userStats,
      sum_map_sortByDesc]
    exact scan_total_eq_sum store users emptyScanAcc (by simp [emptyScanAcc])

theorem claim10_witness :
    (∃ e, e ∈ (buildReport c10users c10store 0).userStats ∧
      e.username = "alice" ∧ e.totalWatchTime = 0 ∧ e.totalSessions = 0 ∧
      e.lastWatchTime = 0 ∧
      e.favoriteChannels =
        favoriteChannelsOf ((c10store.sessions "alice").getD [])) ∧
    (buildReport c10users c10store 0).totalWatchTime <
      sumDurations ((scannedSessions c10users c10store).map Prod.snd) := by
  have h := claim10_absent_stats c10users c10store 0 "alice"
    (by decide) rfl (by decide)
  exact ⟨h.1, h.2.2.2⟩
